import Mathlib

/-
Verification of the drone-telemetry repository: the subscriber ingestion
pipeline (subscriber.py) and the delivery-statistics collector
(StatCollector in the stats publisher source).  Python functions are
embedded shallowly: JSON scalar values become the inductive `JVal`,
machine floats become rationals, the filesystem becomes an association
list from filename to the list of written rows, and the module-level
mutable globals of subscriber.py become the fields of `SubState`.
-/

set_option autoImplicit false

namespace Iot

/-- Scalar JSON value as it appears in a decoded telemetry payload.
`numStr q` stands for a string that Python `float` parses to `q`
(such as "42"); `str s` is a string `float` rejects. -/
inductive JVal where
  | null
  | bool (b : Bool)
  | num (q : ℚ)
  | numStr (q : ℚ)
  | str (s : String)
deriving DecidableEq

/-- Truthiness of a `JVal` under Python `bool(...)`, used by the `or`
operator in `parse_payload` (subscriber.py line 70). -/
def truthy : JVal → Bool
  | JVal.null => false
  | JVal.bool b => b
  | JVal.num q => decide (q ≠ 0)
  | JVal.numStr _ => true
  | JVal.str s => decide (s ≠ "")

/-- Python `float(x)` on a `JVal`: `some q` when the conversion succeeds,
`none` when it raises (subscriber.py line 44). -/
def toFloat : JVal → Option ℚ
  | JVal.null => none
  | JVal.bool b => some (if b then 1 else 0)
  | JVal.num q => some q
  | JVal.numStr q => some q
  | JVal.str _ => none

/-- First-match lookup in an association list, embedding a Python dict
read `k in p` / `p[k]` (dicts in scope never carry duplicate keys). -/
def lookupKey {α : Type} : List (String × α) → String → Option α
  | [], _ => none
  | e :: rest, k => if e.1 = k then some e.2 else lookupKey rest k

/-- Pointwise update of the entry at a key in an association list,
embedding a Python dict write `p[k] = f(p[k])`. -/
def updateKey {α : Type} : List (String × α) → String → (α → α) → List (String × α)
  | [], _, _ => []
  | e :: rest, k, f =>
    if e.1 = k then (e.1, f e.2) :: updateKey rest k f else e :: updateKey rest k f

/-- Helper `pick(*keys)` of `parse_payload` (subscriber.py lines 56-60):
the first key that is present with a non-null value wins. -/
def pick (p : List (String × JVal)) : List String → Option JVal
  | [] => none
  | k :: rest =>
    match lookupKey p k with
    | some v => if v ≠ JVal.null then some v else pick p rest
    | none => pick p rest

/-- Result dict of `parse_payload` (subscriber.py lines 62-71).  Every
field is an `Option` because `rec.get(...)` yields `None` both when
`pick` returned `None` and, for the undecodable-payload `{}` case, when
the key is missing altogether. -/
structure TelemetryRec where
  lat : Option JVal
  lon : Option JVal
  alt : Option JVal
  spd : Option JVal
  hdg : Option JVal
  fix : Option JVal
  battery : Option JVal
  ts_ms : Option JVal
deriving DecidableEq

/-- Value stored under `"ts_ms"` (subscriber.py line 70):
`pick("ts", "timestamp") or int(time.time() * 1000)` — Python `or`
falls through to the receipt time whenever the picked value is falsy,
`None` included.  `now_ms` is the receipt wall clock in milliseconds. -/
def ts_ms_of (p : List (String × JVal)) (now_ms : ℤ) : JVal :=
  match pick p ["ts", "timestamp"] with
  | some v => if truthy v then v else JVal.num (now_ms : ℚ)
  | none => JVal.num (now_ms : ℚ)

/-- Embedding of `parse_payload` (subscriber.py lines 50-71).  The raw
bytes are abstracted to `none` (undecodable, the function returns `{}`)
or `some p` (decoded JSON object `p`). -/
def parse_payload : Option (List (String × JVal)) → ℤ → TelemetryRec
  | none, _ => ⟨none, none, none, none, none, none, none, none⟩
  | some p, now_ms =>
    { lat := pick p ["lat", "latitude"]
      lon := pick p ["lon", "longitude"]
      alt := pick p ["alt", "altitude"]
      spd := pick p ["spd", "speed"]
      hdg := pick p ["hdg", "heading"]
      fix := pick p ["fix", "gps_fix"]
      battery := pick p ["battery", "bat", "battery_level"]
      ts_ms := some (ts_ms_of p now_ms) }

/-- Embedding of `is_battery_valid` (subscriber.py lines 39-47):
`None` rejects, a failed `float(...)` rejects, otherwise accept
iff `0.0 <= bat <= 100.0`. -/
def is_battery_valid (bat : Option JVal) : Bool :=
  match bat with
  | none => false
  | some v =>
    match toFloat v with
    | none => false
    | some q => decide (0 ≤ q ∧ q ≤ 100)

/-- Cell of a CSV row: either a literal string (header names, `ts_iso`)
or a record field value (a `None` field is written as an empty cell). -/
inductive Cell where
  | s (x : String)
  | j (v : Option JVal)
deriving DecidableEq

/-- Row of a CSV file. -/
abbrev Row := List Cell

/-- Filesystem under the data directory: filename to rows written and
flushed so far. -/
abbrev FS := List (String × List Row)

/-- Append one row to an existing file (csv `writerow` + `flush`). -/
def fsWrite (fs : FS) (p : String) (r : Row) : FS :=
  updateKey fs p (fun c => c ++ [r])

/-- Header row written for a fresh bucket file (subscriber.py line 100). -/
def headerRow : Row :=
  [Cell.s "ts_iso", Cell.s "ts_ms", Cell.s "lat", Cell.s "lon", Cell.s "alt",
   Cell.s "spd", Cell.s "hdg", Cell.s "battery", Cell.s "fix"]

/-- Data row built by `on_message` (subscriber.py lines 137-147), in the
source's fixed column order. -/
def rowOf (ts_iso : String) (r : TelemetryRec) : Row :=
  [Cell.s ts_iso, Cell.j r.ts_ms, Cell.j r.lat, Cell.j r.lon, Cell.j r.alt,
   Cell.j r.spd, Cell.j r.hdg, Cell.j r.battery, Cell.j r.fix]

/-- Budget `MAX_FILES` (subscriber.py line 24). -/
def MAX_FILES : Nat := 5

/-- Bucket filename for a minute key (subscriber.py line 92). -/
def fname (minute_key : String) : String := "telemetry_" ++ minute_key ++ ".csv"

/-- Module-level mutable state of subscriber.py: `current_minute_key`,
the open `current_file`/`current_writer` pair (both set together, so one
optional path), `created_files`, the data directory contents, and a flag
recording that `graceful_exit` ran (`os._exit(0)`). -/
structure SubState where
  current_minute_key : Option String
  openHandle : Option String
  created_files : Nat
  fs : FS
  exited : Bool
deriving DecidableEq

/-- Embedding of `close_file` (subscriber.py lines 73-82): rows are
already flushed in this model, so only the handle is dropped. -/
def close_file (s : SubState) : SubState :=
  { s with openHandle := none }

/-- Embedding of `graceful_exit` (subscriber.py lines 167-171). -/
def graceful_exit (s : SubState) : SubState :=
  { close_file s with exited := true }

/-- Embedding of `open_new_file` (subscriber.py lines 85-105).  Returns
the new state and the boolean result.  When the budget is exhausted it
returns `false` and touches nothing; otherwise it opens the bucket file
in append mode (creating it, with a header row, only when it did not
already exist) and increments `created_files`. -/
def open_new_file (s : SubState) (minute_key : String) : SubState × Bool :=
  if MAX_FILES ≤ s.created_files then (s, false)
  else
    let p := fname minute_key
    match lookupKey s.fs p with
    | none =>
      ({ s with fs := s.fs ++ [(p, [headerRow])]
                openHandle := some p
                created_files := s.created_files + 1 }, true)
    | some _ =>
      ({ s with openHandle := some p
                created_files := s.created_files + 1 }, true)

/-- Embedding of `rotate_if_needed` (subscriber.py lines 108-116); the
wall-clock minute key `mk` is passed explicitly. -/
def rotate_if_needed (s : SubState) (mk : String) : SubState :=
  if s.current_minute_key ≠ some mk then
    let s1 := close_file s
    let r := open_new_file s1 mk
    if r.2 then { r.1 with current_minute_key := some mk } else graceful_exit r.1
  else s

/-- Embedding of `on_message` (subscriber.py lines 126-158).  `payload`
is the decoded inbound object (or `none` when undecodable), `now_ms`
the receipt clock, `mk` the current minute key, `ts_iso` the receipt
timestamp string.  `os._exit` inside `graceful_exit` stops the process,
so once `exited` is set nothing further runs. -/
def on_message (s : SubState) (payload : Option (List (String × JVal)))
    (now_ms : ℤ) (mk : String) (ts_iso : String) : SubState :=
  let r := parse_payload payload now_ms
  if is_battery_valid r.battery = false then s
  else
    let s1 := rotate_if_needed s mk
    if s1.exited then s1
    else
      let row := rowOf ts_iso r
      let s2 := if s1.openHandle = none then rotate_if_needed s1 mk else s1
      if s2.exited then s2
      else
        match s2.openHandle with
        | some p => { s2 with fs := fsWrite s2.fs p row }
        | none => s2

/-- External event hitting the subscriber process: an inbound message
(with its receipt-time data) or a broker disconnect (`on_disconnect`,
subscriber.py lines 161-163, which closes the file). -/
inductive Event where
  | msg (payload : Option (List (String × JVal))) (now_ms : ℤ) (mk : String) (ts_iso : String)
  | disconnect
deriving DecidableEq

/-- One event step; a dead process (`exited`) no longer reacts. -/
def step (s : SubState) : Event → SubState
  | Event.msg p now mk iso => if s.exited then s else on_message s p now mk iso
  | Event.disconnect => if s.exited then s else close_file s

/-- State of the freshly started module, before `__main__` runs. -/
def init0 : SubState :=
  { current_minute_key := none, openHandle := none, created_files := 0, fs := [], exited := false }

/-- State after the initial `rotate_if_needed()` call in `__main__`
(subscriber.py line 175), at startup minute `mk0`. -/
def initState (mk0 : String) : SubState :=
  rotate_if_needed init0 mk0

/-- Run of the subscriber: startup at minute `mk0`, then the events. -/
def run (mk0 : String) (evs : List Event) : SubState :=
  evs.foldl step (initState mk0)

/-- Per-topic statistics dict of `StatCollector` (stats publisher
source, line 173): the Python set becomes a `Finset ℤ`. -/
structure ChannelStats where
  recv_total : Nat
  unique_seqs : Finset ℤ
  duplicates : Nat
  first_seq : Option ℤ
  last_seq : Option ℤ
deriving DecidableEq

/-- Fresh per-topic entry (stats publisher source, line 173). -/
def initStats : ChannelStats :=
  { recv_total := 0, unique_seqs := ∅, duplicates := 0, first_seq := none, last_seq := none }

/-- Outcome of `int(obj.get("seq", -1))` inside `record`: the `"seq"`
key may be absent (the default `-1` is used), present but not parseable
as an integer (the `except` arm sets `-1`; an undecodable payload takes
the same arm), or parseable with value `n`. -/
inductive SeqField where
  | absent
  | unparseable
  | val (n : ℤ)
deriving DecidableEq

/-- Sequence number `record` ends up with (stats publisher source,
lines 166-170). -/
def extractSeq : SeqField → ℤ
  | SeqField.absent => -1
  | SeqField.unparseable => -1
  | SeqField.val n => n

/-- Per-topic body of `StatCollector.record` (stats publisher source,
lines 175-183): bump `recv_total`; for a non-negative seq set
`first_seq` if unset, always set `last_seq`, and classify the seq as
duplicate or first-seen. -/
def recordStep (st : ChannelStats) (seq : ℤ) : ChannelStats :=
  let st1 : ChannelStats := { st with recv_total := st.recv_total + 1 }
  if 0 ≤ seq then
    let st2 : ChannelStats :=
      { st1 with
        first_seq := match st1.first_seq with | none => some seq | some v => some v
        last_seq := some seq }
    if seq ∈ st2.unique_seqs then { st2 with duplicates := st2.duplicates + 1 }
    else { st2 with unique_seqs := insert seq st2.unique_seqs }
  else st1

/-- Per-topic entry of `snapshot`'s output (stats publisher source,
lines 196-203). -/
structure ChannelSnapshot where
  recv_total : Nat
  unique : Nat
  duplicates : Nat
  missing : ℤ
  first_seq : Option ℤ
  last_seq : Option ℤ
deriving DecidableEq

/-- Per-topic body of `StatCollector.snapshot` (stats publisher source,
lines 188-203): `missing = max(0, (last - first + 1) - unique)` guarded
by `last_seq >= first_seq`, else `0`. -/
def snapshotOf (st : ChannelStats) : ChannelSnapshot :=
  let unique := st.unique_seqs.card
  let missing : ℤ :=
    match st.first_seq, st.last_seq with
    | some f, some l => if f ≤ l then max 0 (l - f + 1 - (unique : ℤ)) else 0
    | _, _ => 0
  { recv_total := st.recv_total, unique := unique, duplicates := st.duplicates,
    missing := missing, first_seq := st.first_seq, last_seq := st.last_seq }

/-- The collector's `stats` dict: topic to `ChannelStats`, in insertion
order. -/
abbrev StatCollector := List (String × ChannelStats)

/-- Embedding of `StatCollector.record` (stats publisher source, lines
165-183): create the topic entry on first sight, then apply the
per-topic update with the extracted sequence number. -/
def StatCollector.record (sc : StatCollector) (topic : String) (p : SeqField) : StatCollector :=
  let sc1 : StatCollector :=
    match lookupKey sc topic with
    | none => sc ++ [(topic, initStats)]
    | some _ => sc
  updateKey sc1 topic (fun st => recordStep st (extractSeq p))

/-- Embedding of `StatCollector.snapshot` (stats publisher source,
lines 185-204). -/
def StatCollector.snapshot (sc : StatCollector) : List (String × ChannelSnapshot) :=
  sc.map (fun e => (e.1, snapshotOf e.2))

/-- Collector state after a finite list of `(topic, seq-field)` arrivals,
starting from the empty dict of `__init__`. -/
def runCollector (evs : List (String × SeqField)) : StatCollector :=
  evs.foldl (fun sc e => StatCollector.record sc e.1 e.2) []

/-- Per-topic view of an arrival list: the extracted sequence numbers of
the messages recorded on topic `t`, in arrival order. -/
def eventsOn (evs : List (String × SeqField)) (t : String) : List ℤ :=
  (evs.filter (fun e => e.1 = t)).map (fun e => extractSeq e.2)

/-- Sequence numbers the `seq >= 0` branch of `record` acts on, in
arrival order. -/
def seqsOf (xs : List ℤ) : List ℤ :=
  xs.filter (fun s => decide (0 ≤ s))

/-- Channel statistics produced by recording the seqs `xs` on one topic. -/
def runRecords (xs : List ℤ) : ChannelStats :=
  xs.foldl recordStep initStats

end Iot

namespace Iot

/-! ## Association-list lemmas -/

theorem lookupKey_append {α : Type} (l l' : List (String × α)) (k : String) :
    lookupKey (l ++ l') k =
      match lookupKey l k with
      | none => lookupKey l' k
      | some v => some v := by
  induction l with
  | nil => simp [lookupKey]
  | cons e rest ih => by_cases h : e.1 = k <;> simp [lookupKey, h, ih]

theorem lookupKey_updateKey {α : Type} (l : List (String × α)) (k : String) (f : α → α)
    (k' : String) :
    lookupKey (updateKey l k f) k' =
      if k' = k then (lookupKey l k').map f else lookupKey l k' := by
  induction l with
  | nil => simp [lookupKey, updateKey]
  | cons e rest ih =>
    by_cases h : e.1 = k
    · subst h
      by_cases h' : e.1 = k'
      · subst h'
        simp [lookupKey, updateKey]
      · simp [lookupKey, updateKey, h', ih]
    · by_cases h' : e.1 = k'
      · subst h'
        simp [lookupKey, updateKey, h, ih]
      · simp [lookupKey, updateKey, h, h', ih]

theorem updateKey_length {α : Type} (l : List (String × α)) (k : String) (f : α → α) :
    (updateKey l k f).length = l.length := by
  induction l with
  | nil => rfl
  | cons e rest ih => by_cases h : e.1 = k <;> simp [updateKey, h, ih]

/-! ## Sequence-tracker lemmas -/

theorem recordStep_neg (st : ChannelStats) (s : ℤ) (hs : ¬ 0 ≤ s) :
    recordStep st s = { st with recv_total := st.recv_total + 1 } := by
  simp [recordStep, hs]

theorem recordStep_dup (st : ChannelStats) (s : ℤ) (hs : 0 ≤ s) (hm : s ∈ st.unique_seqs) :
    recordStep st s =
      { st with recv_total := st.recv_total + 1
                duplicates := st.duplicates + 1
                first_seq := match st.first_seq with | none => some s | some v => some v
                last_seq := some s } := by
  simp [recordStep, hs, hm]

theorem recordStep_new (st : ChannelStats) (s : ℤ) (hs : 0 ≤ s) (hm : s ∉ st.unique_seqs) :
    recordStep st s =
      { st with recv_total := st.recv_total + 1
                unique_seqs := insert s st.unique_seqs
                first_seq := match st.first_seq with | none => some s | some v => some v
                last_seq := some s } := by
  simp [recordStep, hs, hm]

theorem runRecords_concat (xs : List ℤ) (s : ℤ) :
    runRecords (xs ++ [s]) = recordStep (runRecords xs) s := by
  simp [runRecords, List.foldl_append]

theorem runRecords_fields (xs : List ℤ) :
    (runRecords xs).recv_total = xs.length ∧
    (runRecords xs).unique_seqs = (seqsOf xs).toFinset ∧
    (runRecords xs).duplicates + (seqsOf xs).toFinset.card = (seqsOf xs).length ∧
    (runRecords xs).first_seq = (seqsOf xs).head? ∧
    (runRecords xs).last_seq = (seqsOf xs).getLast? := by
  induction xs using List.reverseRecOn with
  | nil => simp [runRecords, initStats, seqsOf]
  | append_singleton xs s ih =>
    obtain ⟨h1, h2, h3, h4, h5⟩ := ih
    rw [runRecords_concat]
    by_cases hs : 0 ≤ s
    · have hseq : seqsOf (xs ++ [s]) = seqsOf xs ++ [s] := by
        simp [seqsOf, List.filter_append, hs]
      have htf : (seqsOf xs ++ [s]).toFinset = insert s (seqsOf xs).toFinset := by
        simp [List.toFinset_append]
        rw [Finset.union_comm]
        simp [Finset.insert_eq]
      have hfirst : (match (runRecords xs).first_seq with
          | none => some s | some v => some v) = (seqsOf xs ++ [s]).head? := by
        cases hsx : seqsOf xs with
        | nil => rw [h4, hsx]; simp
        | cons a l => rw [h4, hsx]; simp
      by_cases hm : s ∈ (seqsOf xs).toFinset
      · rw [recordStep_dup _ _ hs (h2 ▸ hm)]
        refine ⟨by simp [h1], ?_, ?_, by simp [hfirst, hseq], by simp [hseq, List.getLast?_concat]⟩
        · simp [h2, hseq, htf, Finset.insert_eq_self.mpr hm]
        · simp [hseq, htf, Finset.insert_eq_self.mpr hm]
          omega
      · rw [recordStep_new _ _ hs (h2 ▸ hm)]
        refine ⟨by simp [h1], ?_, ?_, by simp [hfirst, hseq], by simp [hseq, List.getLast?_concat]⟩
        · simp [h2, hseq, htf]
        · simp [hseq, htf, Finset.card_insert_of_not_mem hm]
          omega
    · have hseq : seqsOf (xs ++ [s]) = seqsOf xs := by
        simp [seqsOf, List.filter_append, hs]
      rw [recordStep_neg _ _ hs]
      exact ⟨by simp [h1], by simp [h2, hseq], by simp [hseq]; omega,
             by simp [h4, hseq], by simp [h5, hseq]⟩

theorem record_lookup (sc : StatCollector) (t : String) (p : SeqField) (t' : String) :
    lookupKey (StatCollector.record sc t p) t' =
      if t' = t then some (recordStep ((lookupKey sc t).getD initStats) (extractSeq p))
      else lookupKey sc t' := by
  unfold StatCollector.record
  cases h : lookupKey sc t with
  | none =>
    rw [lookupKey_updateKey]
    by_cases ht : t' = t
    · subst ht
      simp [lookupKey_append, h, lookupKey]
    · simp only [if_neg ht]
      rw [lookupKey_append]
      cases h' : lookupKey sc t' with
      | none => simp [lookupKey, Ne.symm ht]
      | some v => simp
  | some st =>
    rw [lookupKey_updateKey]
    by_cases ht : t' = t
    · subst ht; simp [h]
    · simp [if_neg ht]

theorem lookupKey_snapshot (sc : StatCollector) (t : String) :
    lookupKey (StatCollector.snapshot sc) t = (lookupKey sc t).map snapshotOf := by
  induction sc with
  | nil => simp [StatCollector.snapshot, lookupKey]
  | cons e rest ih =>
    simp only [StatCollector.snapshot, List.map] at ih ⊢
    by_cases h : e.1 = t <;> simp [lookupKey, h, ih]

theorem runCollector_concat (evs : List (String × SeqField)) (e : String × SeqField) :
    runCollector (evs ++ [e]) = StatCollector.record (runCollector evs) e.1 e.2 := by
  simp [runCollector, List.foldl_append]

theorem eventsOn_concat (evs : List (String × SeqField)) (e : String × SeqField) (t : String) :
    eventsOn (evs ++ [e]) t =
      eventsOn evs t ++ (if e.1 = t then [extractSeq e.2] else []) := by
  by_cases h : e.1 = t <;> simp [eventsOn, List.filter_append, h]

theorem runCollector_lookup (evs : List (String × SeqField)) (t : String) :
    lookupKey (runCollector evs) t =
      if eventsOn evs t = [] then none else some (runRecords (eventsOn evs t)) := by
  induction evs using List.reverseRecOn with
  | nil => simp [runCollector, eventsOn, lookupKey]
  | append_singleton evs e ih =>
    rw [runCollector_concat, record_lookup, eventsOn_concat]
    by_cases ht : t = e.1
    · subst ht
      rw [if_pos rfl, ih]
      by_cases he : eventsOn evs e.1 = []
      · simp [he, runRecords_concat, runRecords]
      · simp [he, runRecords_concat]
    · have ht' : ¬ e.1 = t := fun hc => ht hc.symm
      rw [if_neg ht, ih]
      simp [ht']

end Iot

namespace Iot

/-! ## Claim C1 -/

/-- C1 (counterexample): feeding the arrival order `[4, 1]` to one
channel does NOT yield `first_seq = min = 1` and `last_seq = max = 4`;
`record` stores the first-arrived seq in `first_seq` and the
last-arrived seq in `last_seq`, so the snapshot reads
`first_seq = 4, last_seq = 1` even though `min = 1 ≠ 4` and
`max = 4 ≠ 1`. -/
theorem C1_counterexample :
    lookupKey (StatCollector.snapshot
        (runCollector [("ch", SeqField.val 4), ("ch", SeqField.val 1)])) "ch"
      = some { recv_total := 2, unique := 2, duplicates := 0, missing := 0,
               first_seq := some 4, last_seq := some 1 } ∧
    (4 : ℤ) ≠ 1 := by
  decide

/-- C1 (amended): for every channel and every finite arrival order of
sequenced messages, the snapshot's `first_seq` is the sequence number of
the FIRST recorded sequenced message and `last_seq` that of the LAST
recorded sequenced message (arrival order matters; the literal minimum
and maximum are not what is stored). -/
theorem C1_amended (evs : List (String × SeqField)) (t : String)
    (h : seqsOf (eventsOn evs t) ≠ []) :
    ∃ snap, lookupKey (StatCollector.snapshot (runCollector evs)) t = some snap ∧
      snap.first_seq = (seqsOf (eventsOn evs t)).head? ∧
      snap.last_seq = (seqsOf (eventsOn evs t)).getLast? := by
  have hev : eventsOn evs t ≠ [] := by
    intro h0
    exact h (by simp [seqsOf, h0])
  rw [lookupKey_snapshot, runCollector_lookup, if_neg hev]
  obtain ⟨f1, f2, f3, f4, f5⟩ := runRecords_fields (eventsOn evs t)
  exact ⟨_, rfl, by simp [snapshotOf, f4], by simp [snapshotOf, f5]⟩

/-- C1 (amended, witness): at the concrete arrival order `[4, 1]` the
amended claim yields `first_seq = 4` and `last_seq = 1`. -/
theorem C1_amended_witness :
    ∃ snap, lookupKey (StatCollector.snapshot
        (runCollector [("ch", SeqField.val 4), ("ch", SeqField.val 1)])) "ch" = some snap ∧
      snap.first_seq = some 4 ∧ snap.last_seq = some 1 := by
  obtain ⟨snap, hs, h1, h2⟩ :=
    C1_amended [("ch", SeqField.val 4), ("ch", SeqField.val 1)] "ch" (by decide)
  refine ⟨snap, hs, ?_, ?_⟩
  · rw [h1]; decide
  · rw [h2]; decide

/-! ## Claim C3 -/

/-- C3 (counterexample): after feeding `[4, 1]`, the claimed formula
`max(0, (max_seq − min_seq + 1) − distinct_count) = max(0, (4−1+1)−2) = 2`
disagrees with the snapshot, which reports `missing = 0` because the
code computes the range from first-arrived `first_seq = 4` to
last-arrived `last_seq = 1` and the guard `last_seq >= first_seq`
fails. -/
theorem C3_counterexample :
    (lookupKey (StatCollector.snapshot
        (runCollector [("ch", SeqField.val 4), ("ch", SeqField.val 1)])) "ch").map
        ChannelSnapshot.missing = some 0 ∧
    max 0 (((4 : ℤ) - 1 + 1) - 2) = 2 ∧ (0 : ℤ) ≠ 2 := by
  decide

/-- C3 (amended): the snapshot reports
`missing = max(0, (last_seq − first_seq + 1) − distinct_count)` when at
least one sequenced message was recorded on the channel AND the
first-arrived seq is ≤ the last-arrived seq, and `missing = 0`
otherwise (in particular whenever no sequenced message was recorded).
The claim's concrete examples hold: `[1,2,2,4]` yields `total=4,
distinct=3, duplicates=1, first_seq=1, last_seq=4, missing=1`, and two
messages without sequence numbers yield `total=2, missing=0`. -/
theorem C3_amended (evs : List (String × SeqField)) (t : String) :
    (∀ snap, lookupKey (StatCollector.snapshot (runCollector evs)) t = some snap →
      ((seqsOf (eventsOn evs t) = [] → snap.missing = 0) ∧
       (∀ f l, (seqsOf (eventsOn evs t)).head? = some f →
          (seqsOf (eventsOn evs t)).getLast? = some l →
          snap.missing =
            if f ≤ l then
              max 0 (l - f + 1 - ((seqsOf (eventsOn evs t)).toFinset.card : ℤ))
            else 0))) ∧
    lookupKey (StatCollector.snapshot
        (runCollector [("ch", SeqField.val 1), ("ch", SeqField.val 2),
                       ("ch", SeqField.val 2), ("ch", SeqField.val 4)])) "ch"
      = some { recv_total := 4, unique := 3, duplicates := 1, missing := 1,
               first_seq := some 1, last_seq := some 4 } ∧
    lookupKey (StatCollector.snapshot
        (runCollector [("ch", SeqField.absent), ("ch", SeqField.absent)])) "ch"
      = some { recv_total := 2, unique := 0, duplicates := 0, missing := 0,
               first_seq := none, last_seq := none } := by
  refine ⟨?_, by decide, by decide⟩
  intro snap hsnap
  rw [lookupKey_snapshot, runCollector_lookup] at hsnap
  by_cases hev : eventsOn evs t = []
  · rw [if_pos hev] at hsnap
    exact absurd hsnap (by simp)
  · rw [if_neg hev] at hsnap
    simp only [Option.map_some'] at hsnap
    obtain ⟨f1, f2, f3, f4, f5⟩ := runRecords_fields (eventsOn evs t)
    have hsnap' : snapshotOf (runRecords (eventsOn evs t)) = snap := Option.some.inj hsnap
    subst hsnap'
    constructor
    · intro hnil
      simp [snapshotOf, f4, f5, hnil]
    · intro fv lv hf hl
      simp [snapshotOf, f4, f5, hf, hl, f2]

/-- C3 (amended, witness): at the concrete arrival order `[1, 2, 2, 4]`
the amended formula gives `missing = max(0, (4 − 1 + 1) − 3) = 1`. -/
theorem C3_amended_witness :
    ∃ snap, lookupKey (StatCollector.snapshot
        (runCollector [("ch", SeqField.val 1), ("ch", SeqField.val 2),
                       ("ch", SeqField.val 2), ("ch", SeqField.val 4)])) "ch" = some snap ∧
      snap.missing = max 0 ((4 - 1 + 1) - (3 : ℤ)) := by
  have hmain := C3_amended [("ch", SeqField.val 1), ("ch", SeqField.val 2),
                            ("ch", SeqField.val 2), ("ch", SeqField.val 4)] "ch"
  refine ⟨_, hmain.2.1, ?_⟩
  have h := (hmain.1 _ hmain.2.1).2 1 4 (by decide) (by decide)
  rw [h]
  decide

end Iot

namespace Iot

/-! ## Claim C7 -/

/-- C7: for every channel on which every received message carries a
parseable non-negative sequence number, the invariant
`duplicates + |unique_seqs| = recv_total` holds on that channel's stats
after any finite sequence of `record` calls (a never-seen channel reads
as the all-zero `initStats`), and any further `record` call with a
non-negative seq preserves it on any state satisfying it. -/
theorem C7_duplicates_invariant (evs : List (String × SeqField)) (t : String)
    (h : ∀ e ∈ evs, e.1 = t → ∃ n, 0 ≤ n ∧ e.2 = SeqField.val n) :
    (((lookupKey (runCollector evs) t).getD initStats).duplicates
        + ((lookupKey (runCollector evs) t).getD initStats).unique_seqs.card
      = ((lookupKey (runCollector evs) t).getD initStats).recv_total) ∧
    (∀ st : ChannelStats, ∀ n : ℤ, 0 ≤ n →
      st.duplicates + st.unique_seqs.card = st.recv_total →
      (recordStep st n).duplicates + (recordStep st n).unique_seqs.card
        = (recordStep st n).recv_total) := by
  constructor
  · rw [runCollector_lookup]
    by_cases hev : eventsOn evs t = []
    · rw [if_pos hev]
      simp [initStats]
    · rw [if_neg hev]
      simp only [Option.getD_some]
      obtain ⟨f1, f2, f3, _, _⟩ := runRecords_fields (eventsOn evs t)
      have hall : ∀ a ∈ eventsOn evs t, (fun s => decide (0 ≤ s)) a = true := by
        intro a ha
        simp only [eventsOn, List.mem_map, List.mem_filter] at ha
        obtain ⟨e, ⟨hmem, het⟩, rfl⟩ := ha
        obtain ⟨n, hn, hval⟩ := h e hmem (by simpa using het)
        simp [hval, extractSeq, hn]
      have hfil : seqsOf (eventsOn evs t) = eventsOn evs t :=
        List.filter_eq_self.mpr hall
      have hlen : (seqsOf (eventsOn evs t)).length = (eventsOn evs t).length := by
        rw [hfil]
      rw [f1, f2]
      omega
  · intro st n hn hinv
    by_cases hm : n ∈ st.unique_seqs
    · rw [recordStep_dup st n hn hm]
      simpa using by omega
    · rw [recordStep_new st n hn hm]
      simp [Finset.card_insert_of_not_mem hm]
      omega

/-- C7 (witness): the invariant holds concretely after feeding the
all-sequenced arrivals `[1, 2, 2, 4]`: `1 + 3 = 4`. -/
theorem C7_duplicates_invariant_witness :
    ((lookupKey (runCollector [("ch", SeqField.val 1), ("ch", SeqField.val 2),
        ("ch", SeqField.val 2), ("ch", SeqField.val 4)]) "ch").getD initStats).duplicates
        + ((lookupKey (runCollector [("ch", SeqField.val 1), ("ch", SeqField.val 2),
        ("ch", SeqField.val 2), ("ch", SeqField.val 4)]) "ch").getD initStats).unique_seqs.card
      = ((lookupKey (runCollector [("ch", SeqField.val 1), ("ch", SeqField.val 2),
        ("ch", SeqField.val 2), ("ch", SeqField.val 4)]) "ch").getD initStats).recv_total :=
  (C7_duplicates_invariant [("ch", SeqField.val 1), ("ch", SeqField.val 2),
        ("ch", SeqField.val 2), ("ch", SeqField.val 4)] "ch"
    (by
      intro e he het
      fin_cases he
      · exact ⟨1, by decide, rfl⟩
      · exact ⟨2, by decide, rfl⟩
      · exact ⟨2, by decide, rfl⟩
      · exact ⟨4, by decide, rfl⟩)).1

/-! ## Claim C10 -/

/-- C10: a `record` call whose payload has no parseable integer `seq`
(absent or unparseable, both of which the code turns into `-1`) or
whose `seq` value is negative increments only the channel's
`recv_total`, leaving `unique_seqs`, `duplicates`, `first_seq` and
`last_seq` unchanged and leaving every other channel untouched; a
negative producer-supplied seq is treated exactly like an absent one. -/
theorem C10_negative_seq (sc : StatCollector) (t : String) (p : SeqField)
    (h : p = SeqField.absent ∨ p = SeqField.unparseable ∨ ∃ n, n < 0 ∧ p = SeqField.val n) :
    (lookupKey (StatCollector.record sc t p) t =
      some { (lookupKey sc t).getD initStats with
             recv_total := ((lookupKey sc t).getD initStats).recv_total + 1 }) ∧
    (∀ t', t' ≠ t → lookupKey (StatCollector.record sc t p) t' = lookupKey sc t') := by
  have hneg : ¬ 0 ≤ extractSeq p := by
    rcases h with rfl | rfl | ⟨n, hn, rfl⟩
    · decide
    · decide
    · simpa [extractSeq] using hn
  constructor
  · rw [record_lookup, if_pos rfl, recordStep_neg _ _ hneg]
  · intro t' ht'
    rw [record_lookup, if_neg ht']

/-- C10 (witness): recording seq `-7` on a fresh collector yields
`recv_total = 1` and empty/none for all other fields of the channel. -/
theorem C10_negative_seq_witness :
    lookupKey (StatCollector.record [] "ch" (SeqField.val (-7))) "ch" =
      some { recv_total := 1, unique_seqs := ∅, duplicates := 0,
             first_seq := none, last_seq := none } :=
  (C10_negative_seq [] "ch" (SeqField.val (-7)) (Or.inr (Or.inr ⟨-7, by decide, rfl⟩))).1

end Iot

namespace Iot

/-! ## Claim C2 -/

/-- C2: `is_battery_valid` accepts exactly the battery values that are
present and convert to a number `q` with `0 ≤ q ≤ 100` inclusive;
concretely, `-0.01` and `100.01` are rejected, as are an absent value,
a `null`, and a non-numeric string. -/
theorem C2_battery_valid :
    (∀ b : Option JVal, is_battery_valid b = true ↔
      ∃ v q, b = some v ∧ toFloat v = some q ∧ 0 ≤ q ∧ q ≤ 100) ∧
    is_battery_valid none = false ∧
    is_battery_valid (some (JVal.num (mkRat (-1) 100))) = false ∧
    is_battery_valid (some (JVal.num (mkRat 10001 100))) = false ∧
    is_battery_valid (some (JVal.str "abc")) = false ∧
    is_battery_valid (some JVal.null) = false := by
  refine ⟨?_, by decide, by decide, by decide, by decide, by decide⟩
  intro b
  constructor
  · intro hb
    match b with
    | none => simp [is_battery_valid] at hb
    | some v =>
      match hv : toFloat v with
      | none => simp [is_battery_valid, hv] at hb
      | some q =>
        refine ⟨v, q, rfl, hv, ?_⟩
        simpa [is_battery_valid, hv] using hb
  · rintro ⟨v, q, rfl, hv, h0, h100⟩
    simp [is_battery_valid, hv, h0, h100]

/-- C2 (witness): the in-range value `42` is accepted. -/
theorem C2_battery_valid_witness :
    is_battery_valid (some (JVal.num 42)) = true :=
  (C2_battery_valid.1 (some (JVal.num 42))).mpr ⟨JVal.num 42, 42, rfl, rfl, by decide, by decide⟩

/-! ## Claim C8 -/

/-- C8 (counterexample): the payload `{"ts": 0}` carries a present,
non-null producer send time `0`, yet `parse_payload` stores the receipt
time (here `1234`) in `ts_ms`, because Python `or` treats the falsy
value `0` like an absent one. -/
theorem C8_counterexample :
    (parse_payload (some [("ts", JVal.num 0)]) 1234).ts_ms = some (JVal.num 1234) ∧
    JVal.num 1234 ≠ JVal.num 0 := by
  decide

/-- C8 (amended): `parse_payload` sets `ts_ms` to the producer-supplied
`ts`/`timestamp` value whenever that value is present, non-null AND
truthy (e.g. a non-zero number); the receipt time is substituted not
only when the send time is absent but also when the picked value is
falsy, such as the number `0`. -/
theorem C8_amended (p : List (String × JVal)) (now_ms : ℤ) :
    (∀ v, pick p ["ts", "timestamp"] = some v → truthy v = true →
      (parse_payload (some p) now_ms).ts_ms = some v) ∧
    (∀ q : ℚ, lookupKey p "ts" = some (JVal.num q) → q ≠ 0 →
      (parse_payload (some p) now_ms).ts_ms = some (JVal.num q)) ∧
    (pick p ["ts", "timestamp"] = none →
      (parse_payload (some p) now_ms).ts_ms = some (JVal.num (now_ms : ℚ))) ∧
    (∀ v, pick p ["ts", "timestamp"] = some v → truthy v = false →
      (parse_payload (some p) now_ms).ts_ms = some (JVal.num (now_ms : ℚ))) := by
  refine ⟨?_, ?_, ?_, ?_⟩
  · intro v hp ht
    simp [parse_payload, ts_ms_of, hp, ht]
  · intro q hq hq0
    have hp : pick p ["ts", "timestamp"] = some (JVal.num q) := by
      simp [pick, hq]
    have ht : truthy (JVal.num q) = true := by simp [truthy, hq0]
    simp [parse_payload, ts_ms_of, hp, ht]
  · intro hp
    simp [parse_payload, ts_ms_of, hp]
  · intro v hp ht
    simp [parse_payload, ts_ms_of, hp, ht]

/-- C8 (amended, witness): a payload with `ts = 5` keeps `5`, and a
payload without `ts`/`timestamp` keys gets the receipt time `7`. -/
theorem C8_amended_witness :
    (parse_payload (some [("ts", JVal.num 5)]) 7).ts_ms = some (JVal.num 5) ∧
    (parse_payload (some [("lat", JVal.num 1)]) 7).ts_ms = some (JVal.num 7) :=
  ⟨(C8_amended [("ts", JVal.num 5)] 7).2.1 5 rfl (by decide),
   (C8_amended [("lat", JVal.num 1)] 7).2.2.1 (by decide)⟩

end Iot

namespace Iot

theorem open_new_file_full (s : SubState) (mk : String) (h : MAX_FILES ≤ s.created_files) :
    open_new_file s mk = (s, false) := by
  simp [open_new_file, h]

theorem open_new_file_ok (s : SubState) (mk : String) (h : s.created_files < MAX_FILES) :
    (open_new_file s mk).2 = true ∧
    (open_new_file s mk).1.openHandle = some (fname mk) ∧
    (open_new_file s mk).1.created_files = s.created_files + 1 ∧
    (open_new_file s mk).1.current_minute_key = s.current_minute_key ∧
    (open_new_file s mk).1.exited = s.exited := by
  have h' : ¬ MAX_FILES ≤ s.created_files := by omega
  unfold open_new_file
  rw [if_neg h']
  cases hl : lookupKey s.fs (fname mk) <;> simp [hl]

theorem open_new_file_existing (s : SubState) (mk : String) (c : List Row)
    (hc : s.created_files < MAX_FILES)
    (h : lookupKey s.fs (fname mk) = some c) :
    (open_new_file s mk).1.fs = s.fs ∧ (open_new_file s mk).2 = true := by
  have h' : ¬ MAX_FILES ≤ s.created_files := by omega
  unfold open_new_file
  rw [if_neg h']
  simp [h]

theorem rotate_same (s : SubState) (mk : String) (h : s.current_minute_key = some mk) :
    rotate_if_needed s mk = s := by
  simp [rotate_if_needed, h]

theorem rotate_diff_full (s : SubState) (mk : String)
    (h : s.current_minute_key ≠ some mk) (hc : MAX_FILES ≤ s.created_files) :
    rotate_if_needed s mk = graceful_exit (close_file s) := by
  have hcc : MAX_FILES ≤ (close_file s).created_files := hc
  simp [rotate_if_needed, h, open_new_file_full _ _ hcc]

theorem rotate_diff_ok (s : SubState) (mk : String)
    (h : s.current_minute_key ≠ some mk) (hc : s.created_files < MAX_FILES) :
    (rotate_if_needed s mk).exited = s.exited ∧
    (rotate_if_needed s mk).openHandle = some (fname mk) ∧
    (rotate_if_needed s mk).current_minute_key = some mk ∧
    (rotate_if_needed s mk).created_files = s.created_files + 1 := by
  have hcc : (close_file s).created_files < MAX_FILES := hc
  obtain ⟨h1, h2, h3, h4, h5⟩ := open_new_file_ok (close_file s) mk hcc
  unfold rotate_if_needed
  rw [if_pos h]
  dsimp only
  rw [h1, if_pos rfl]
  exact ⟨h5.trans rfl, h2, rfl, h3.trans rfl⟩

end Iot

namespace Iot

/-- Budget invariant maintained by the subscriber run: the created-file
counter never exceeds `MAX_FILES`, and the data directory never holds
more files than the counter. -/
def budgetInv (s : SubState) : Prop :=
  s.created_files ≤ MAX_FILES ∧ s.fs.length ≤ s.created_files

/-- Header invariant: every bucket file on storage contains exactly one
header row. -/
def headerInv (fs : FS) : Prop :=
  ∀ p c, lookupKey fs p = some c → c.count headerRow = 1

theorem rowOf_ne_headerRow (iso : String) (r : TelemetryRec) : rowOf iso r ≠ headerRow := by
  simp [rowOf, headerRow]

theorem open_new_file_budget (s : SubState) (mk : String) (h : budgetInv s) :
    budgetInv (open_new_file s mk).1 := by
  obtain ⟨hb1, hb2⟩ := h
  unfold open_new_file
  split
  · exact ⟨hb1, hb2⟩
  · dsimp only
    split
    · refine ⟨?_, ?_⟩
      · show s.created_files + 1 ≤ MAX_FILES
        omega
      · show (s.fs ++ [(fname mk, [headerRow])]).length ≤ s.created_files + 1
        rw [List.length_append]
        simp
        omega
    · refine ⟨?_, ?_⟩
      · show s.created_files + 1 ≤ MAX_FILES
        omega
      · show s.fs.length ≤ s.created_files + 1
        omega

theorem open_new_file_header (s : SubState) (mk : String) (h : headerInv s.fs) :
    headerInv (open_new_file s mk).1.fs := by
  unfold open_new_file
  split
  · exact h
  · dsimp only
    split
    · intro q c hq
      rw [lookupKey_append] at hq
      cases hl : lookupKey s.fs q with
      | some c0 =>
        rw [hl] at hq
        exact h q c (hq ▸ hl)
      | none =>
        rw [hl] at hq
        dsimp at hq
        by_cases hf : fname mk = q
        · simp only [lookupKey, if_pos hf] at hq
          obtain rfl := (Option.some.inj hq).symm
          exact (by decide : ([headerRow] : List Row).count headerRow = 1)
        · simp only [lookupKey, if_neg hf] at hq
          exact absurd hq (by simp)
    · exact h

end Iot

namespace Iot

theorem budgetInv_close (s : SubState) (h : budgetInv s) : budgetInv (close_file s) := h

theorem budgetInv_exit (s : SubState) (h : budgetInv s) : budgetInv (graceful_exit s) := h

theorem rotate_budget (s : SubState) (mk : String) (h : budgetInv s) :
    budgetInv (rotate_if_needed s mk) := by
  unfold rotate_if_needed
  split
  · dsimp only
    have h1 : budgetInv (open_new_file (close_file s) mk).1 :=
      open_new_file_budget (close_file s) mk (budgetInv_close s h)
    split
    · exact h1
    · exact budgetInv_exit _ h1
  · exact h

theorem rotate_header (s : SubState) (mk : String) (h : headerInv s.fs) :
    headerInv (rotate_if_needed s mk).fs := by
  unfold rotate_if_needed
  split
  · dsimp only
    have h1 : headerInv (open_new_file (close_file s) mk).1.fs :=
      open_new_file_header (close_file s) mk h
    split
    · exact h1
    · exact h1
  · exact h

theorem headerInv_fsWrite (fs : FS) (p : String) (iso : String) (r : TelemetryRec)
    (h : headerInv fs) : headerInv (fsWrite fs p (rowOf iso r)) := by
  intro q c hq
  rw [fsWrite, lookupKey_updateKey] at hq
  by_cases hqp : q = p
  · rw [if_pos hqp] at hq
    cases hl : lookupKey fs q with
    | none => rw [hl] at hq; exact absurd hq (by simp)
    | some c0 =>
      rw [hl] at hq
      simp only [Option.map_some'] at hq
      obtain rfl := (Option.some.inj hq).symm
      rw [List.count_append]
      have hc0 := h q c0 hl
      have hrow : (List.count headerRow [rowOf iso r]) = 0 := by
        simp [List.count_cons, rowOf_ne_headerRow iso r]
      omega
  · rw [if_neg hqp] at hq
    exact h q c hq

theorem budgetInv_fsWrite (x : SubState) (p : String) (row : Row) (h : budgetInv x) :
    budgetInv { x with fs := fsWrite x.fs p row } := by
  obtain ⟨h1, h2⟩ := h
  refine ⟨h1, ?_⟩
  show (fsWrite x.fs p row).length ≤ x.created_files
  rw [fsWrite, updateKey_length]
  exact h2

theorem on_message_budget (s : SubState) (pl : Option (List (String × JVal))) (now_ms : ℤ)
    (mk iso : String) (h : budgetInv s) : budgetInv (on_message s pl now_ms mk iso) := by
  unfold on_message
  dsimp only
  split
  · exact h
  · have h1 : budgetInv (rotate_if_needed s mk) := rotate_budget s mk h
    split
    · exact h1
    · split
      · have h2 := rotate_budget (rotate_if_needed s mk) mk h1
        split
        · exact h2
        · split
          · exact budgetInv_fsWrite _ _ _ h2
          · exact h2
      · split
        · exact budgetInv_fsWrite _ _ _ h1
        · exact h1

theorem on_message_header (s : SubState) (pl : Option (List (String × JVal))) (now_ms : ℤ)
    (mk iso : String) (h : headerInv s.fs) : headerInv (on_message s pl now_ms mk iso).fs := by
  unfold on_message
  dsimp only
  split
  · exact h
  · have h1 : headerInv (rotate_if_needed s mk).fs := rotate_header s mk h
    split
    · exact h1
    · split
      · have h2 := rotate_header (rotate_if_needed s mk) mk h1
        split
        · exact h2
        · split
          · exact headerInv_fsWrite _ _ _ _ h2
          · exact h2
      · split
        · exact headerInv_fsWrite _ _ _ _ h1
        · exact h1

theorem step_budget (s : SubState) (e : Event) (h : budgetInv s) : budgetInv (step s e) := by
  cases e with
  | msg pl now mk iso =>
    by_cases hx : s.exited = true
    · simpa [step, hx] using h
    · simpa [step, hx] using on_message_budget s pl now mk iso h
  | disconnect =>
    by_cases hx : s.exited = true
    · simpa [step, hx] using h
    · simpa [step, hx] using budgetInv_close s h

theorem step_header (s : SubState) (e : Event) (h : headerInv s.fs) : headerInv (step s e).fs := by
  cases e with
  | msg pl now mk iso =>
    by_cases hx : s.exited = true
    · simpa [step, hx] using h
    · simpa [step, hx] using on_message_header s pl now mk iso h
  | disconnect =>
    by_cases hx : s.exited = true
    · simpa [step, hx] using h
    · simpa [step, hx, close_file] using h

theorem foldl_budget (evs : List Event) (s : SubState) (h : budgetInv s) :
    budgetInv (evs.foldl step s) := by
  induction evs generalizing s with
  | nil => exact h
  | cons e rest ih => exact ih _ (step_budget s e h)

theorem foldl_header (evs : List Event) (s : SubState) (h : headerInv s.fs) :
    headerInv (evs.foldl step s).fs := by
  induction evs generalizing s with
  | nil => exact h
  | cons e rest ih => exact ih _ (step_header s e h)

theorem run_budget (mk0 : String) (evs : List Event) : budgetInv (run mk0 evs) := by
  refine foldl_budget evs (initState mk0) (rotate_budget init0 mk0 ⟨?_, ?_⟩)
  · decide
  · decide

theorem run_header (mk0 : String) (evs : List Event) : headerInv (run mk0 evs).fs := by
  refine foldl_header evs (initState mk0) (rotate_header init0 mk0 ?_)
  intro p c hc
  exact absurd hc (by simp [init0, lookupKey])

end Iot

namespace Iot

/-! ## Claim C4 -/

/-- C4: with one-minute buckets and `MAX_FILES = 5`, once the
created-file counter has reached the budget, a further boundary yields
budget exhaustion: `open_new_file` returns `False` without opening or
creating anything, and `rotate_if_needed` at such a boundary performs
the terminal graceful exit; over any run (any startup minute and any
finite event sequence) the created-file counter never exceeds
`MAX_FILES`, so no sixth file is ever created (the data directory
never holds more than `MAX_FILES` files). -/
theorem C4_budget (mk0 : String) (evs : List Event) (s : SubState) (mk : String) :
    (MAX_FILES ≤ s.created_files → open_new_file s mk = (s, false)) ∧
    (MAX_FILES ≤ s.created_files → s.current_minute_key ≠ some mk →
      rotate_if_needed s mk = graceful_exit (close_file s)) ∧
    (run mk0 evs).created_files ≤ MAX_FILES ∧
    (run mk0 evs).fs.length ≤ MAX_FILES := by
  obtain ⟨hb1, hb2⟩ := run_budget mk0 evs
  exact ⟨open_new_file_full s mk, fun hc hk => rotate_diff_full s mk hk hc,
    hb1, hb2.trans hb1⟩

/-- C4 (witness): a concrete run crossing five distinct minute
boundaries ends with the counter at the budget, and a sixth boundary
returns `false` leaving the state untouched. -/
theorem C4_budget_witness :
    open_new_file
        { current_minute_key := some "m5", openHandle := none,
          created_files := 5, fs := [], exited := false } "m6"
      = ({ current_minute_key := some "m5", openHandle := none,
           created_files := 5, fs := [], exited := false }, false) ∧
    (run "m0" [Event.msg (some [("battery", JVal.num 50)]) 0 "m1" "T1",
               Event.msg (some [("battery", JVal.num 50)]) 0 "m2" "T2",
               Event.msg (some [("battery", JVal.num 50)]) 0 "m3" "T3",
               Event.msg (some [("battery", JVal.num 50)]) 0 "m4" "T4",
               Event.msg (some [("battery", JVal.num 50)]) 0 "m5" "T5"]).created_files
      ≤ MAX_FILES := by
  have h := C4_budget "m0"
    [Event.msg (some [("battery", JVal.num 50)]) 0 "m1" "T1",
     Event.msg (some [("battery", JVal.num 50)]) 0 "m2" "T2",
     Event.msg (some [("battery", JVal.num 50)]) 0 "m3" "T3",
     Event.msg (some [("battery", JVal.num 50)]) 0 "m4" "T4",
     Event.msg (some [("battery", JVal.num 50)]) 0 "m5" "T5"]
    { current_minute_key := some "m5", openHandle := none,
      created_files := 5, fs := [], exited := false }
    "m6"
  exact ⟨h.1 (by decide), h.2.2.1⟩

/-! ## Claim C5 -/

/-- C5: opening the same bucket key twice never yields two header rows:
`open_new_file` on a bucket file that already exists on storage (budget
permitting) changes no file contents at all — it appends, it does not
re-write the header — and in every reachable state of a run each bucket
file contains at most one header row. -/
theorem C5_header (mk0 : String) (evs : List Event) :
    (∀ (s : SubState) (mk : String) (c : List Row), s.created_files < MAX_FILES →
      lookupKey s.fs (fname mk) = some c →
      (open_new_file s mk).1.fs = s.fs ∧ (open_new_file s mk).2 = true) ∧
    (∀ p c, lookupKey (run mk0 evs).fs p = some c → c.count headerRow ≤ 1) := by
  refine ⟨?_, ?_⟩
  · intro s mk c hc h
    exact open_new_file_existing s mk c hc h
  · intro p c hp
    exact (run_header mk0 evs p c hp).le

/-- C5 (witness): reopening the already-existing bucket of minute
`m1` leaves the stored contents unchanged, and the bucket file of the
freshly started run holds at most one header row. -/
theorem C5_header_witness :
    (open_new_file
        { current_minute_key := some "m1", openHandle := none,
          created_files := 1, fs := [(fname "m1", [headerRow])], exited := false } "m1").1.fs
      = [(fname "m1", [headerRow])] ∧
    ([headerRow] : List Row).count headerRow ≤ 1 := by
  have h := C5_header "m1" []
  refine ⟨?_, ?_⟩
  · exact (h.1
      { current_minute_key := some "m1", openHandle := none,
        created_files := 1, fs := [(fname "m1", [headerRow])], exited := false }
      "m1" [headerRow] (by decide) (by simp [lookupKey])).1
  · exact h.2 (fname "m1") [headerRow] (by simp [run, initState, rotate_if_needed,
      init0, open_new_file, MAX_FILES, lookupKey])

/-! ## Claim C9 -/

/-- C9: when the validator rejects an inbound message, `on_message`
discards it and the whole subscriber state — `current_minute_key`,
`created_files`, the open sink handle, and the contents of every bucket
file — is left exactly unchanged: no rotation, no write. -/
theorem C9_reject (s : SubState) (pl : Option (List (String × JVal))) (now_ms : ℤ)
    (mk ts_iso : String)
    (h : is_battery_valid (parse_payload pl now_ms).battery = false) :
    on_message s pl now_ms mk ts_iso = s := by
  simp [on_message, h]

/-- C9 (witness): a message with battery `150` leaves the freshly
started subscriber state untouched. -/
theorem C9_reject_witness :
    on_message (initState "m1") (some [("battery", JVal.num 150)]) 0 "m1" "T1"
      = initState "m1" :=
  C9_reject _ _ _ _ _ (by decide)

/-! ## Claim C6 -/

/-- C6 (counterexample): a record accepted by the validator can produce
NO row while ingestion continues: starting the subscriber in minute
`m1`, a broker disconnect closes the file handle; a subsequent valid
message in the same minute `m1` is accepted, but `rotate_if_needed`
does nothing (the minute key is unchanged), the writer is still `None`,
the row is skipped with a warning, and the process has not exited. -/
theorem C6_counterexample :
    is_battery_valid (parse_payload (some [("battery", JVal.num 50)]) 999).battery = true ∧
    step (step (initState "m1") Event.disconnect)
        (Event.msg (some [("battery", JVal.num 50)]) 999 "m1" "T1")
      = step (initState "m1") Event.disconnect ∧
    (step (initState "m1") Event.disconnect).exited = false := by
  decide

/-- C6 (amended): while ingesting, a record accepted by the validator
causes exactly one row — in the fixed column order of `rowOf` — to be
appended and flushed to the current bucket file, EXCEPT that (a) at a
minute boundary with the budget exhausted no row is written and the
process exits (fatal condition), and (b) when the sink handle is closed
(e.g. after a disconnect) and the message arrives within the minute
recorded in `current_minute_key`, the row is skipped with a warning
while ingestion continues and the state is unchanged. -/
theorem C6_amended (s : SubState) (p : List (String × JVal)) (now_ms : ℤ) (mk ts_iso : String)
    (hacc : is_battery_valid (parse_payload (some p) now_ms).battery = true)
    (hex : s.exited = false) :
    (∃ path, (rotate_if_needed s mk).openHandle = some path ∧
       on_message s (some p) now_ms mk ts_iso
         = { rotate_if_needed s mk with
             fs := fsWrite (rotate_if_needed s mk).fs path
                     (rowOf ts_iso (parse_payload (some p) now_ms)) }) ∨
    (MAX_FILES ≤ s.created_files ∧ s.current_minute_key ≠ some mk ∧
       (on_message s (some p) now_ms mk ts_iso).exited = true ∧
       (on_message s (some p) now_ms mk ts_iso).fs = s.fs) ∨
    (s.current_minute_key = some mk ∧ s.openHandle = none ∧
       on_message s (some p) now_ms mk ts_iso = s) := by
  have hacc' : ¬ is_battery_valid (parse_payload (some p) now_ms).battery = false := by
    simp [hacc]
  by_cases hk : s.current_minute_key = some mk
  · by_cases hh : s.openHandle = none
    · refine Or.inr (Or.inr ⟨hk, hh, ?_⟩)
      unfold on_message
      dsimp only
      rw [if_neg hacc']
      simp [rotate_same s mk hk, hex, hh]
    · obtain ⟨path, hpath⟩ := Option.ne_none_iff_exists'.mp hh
      refine Or.inl ⟨path, by rw [rotate_same s mk hk]; exact hpath, ?_⟩
      unfold on_message
      dsimp only
      rw [if_neg hacc']
      simp [rotate_same s mk hk, hex, hpath]
  · by_cases hc : s.created_files < MAX_FILES
    · obtain ⟨r1, r2, r3, r4⟩ := rotate_diff_ok s mk hk hc
      refine Or.inl ⟨fname mk, r2, ?_⟩
      unfold on_message
      dsimp only
      rw [if_neg hacc']
      simp [r1, r2, hex]
    · have hc' : MAX_FILES ≤ s.created_files := by omega
      have heq := rotate_diff_full s mk hk hc'
      refine Or.inr (Or.inl ⟨hc', hk, ?_, ?_⟩)
      · unfold on_message
        dsimp only
        rw [if_neg hacc', heq]
        simp [graceful_exit, close_file]
      · unfold on_message
        dsimp only
        rw [if_neg hacc', heq]
        simp [graceful_exit, close_file]

/-- C6 (amended, witness): in the ordinary running state the write
branch applies: exactly one row is appended to the open bucket. -/
theorem C6_amended_witness :
    ∃ path, (rotate_if_needed (initState "m1") "m1").openHandle = some path ∧
      on_message (initState "m1") (some [("battery", JVal.num 50)]) 999 "m1" "T1"
        = { rotate_if_needed (initState "m1") "m1" with
            fs := fsWrite (rotate_if_needed (initState "m1") "m1").fs path
                    (rowOf "T1" (parse_payload (some [("battery", JVal.num 50)]) 999)) } := by
  rcases C6_amended (initState "m1") [("battery", JVal.num 50)] 999 "m1" "T1"
      (by decide) (by decide) with h | h | h
  · exact h
  · exact absurd h.1 (by decide)
  · exact absurd h.2.1 (by decide)

end Iot

